import Mathlib

/-!
Verification of `split_mkv.py`, a script that splits a concatenated MKV
byte stream into separate files at EBML-header boundaries.

Shallow embedding conventions:
* a Python `bytes` buffer is a `List Nat` (each element a byte value);
* Python slicing `data[a:b]` with non-negative bounds is `pySlice`;
* filesystem and logging side effects are recorded as an explicit
  `Effect` trace; the success or failure of each file write is an
  oracle `writeOk : Nat → Bool` indexed by the segment index;
* a Python exception escaping `split_mkv_stream` (the `ValueError`
  that `max()` raises on an empty sequence) is the `crashed` flag.
-/

/-- The 4-byte EBML magic `b'\x1A\x45\xDF\xA3'` (source line 7). -/
def MAGIC_MKV_HEADER : List Nat := [0x1A, 0x45, 0xDF, 0xA3]

/-- Python slice `data[a:b]` for non-negative `a`, `b` (clamping semantics). -/
def pySlice (data : List Nat) (a b : Nat) : List Nat :=
  (data.drop a).take (b - a)

/-- Python `s.startswith(p)` on byte strings. -/
def startswith (s p : List Nat) : Bool :=
  List.isPrefixOf p s

/-- `find_mkv_headers` (source lines 9-19):
`[i for i in range(len(data) - len(MAGIC_MKV_HEADER)) if data[i:i+4] == MAGIC_MKV_HEADER]`.
Note the Python `range` bound is `len(data) - 4`, exclusive. -/
def find_mkv_headers (data : List Nat) : List Nat :=
  (List.range (data.length - MAGIC_MKV_HEADER.length)).filter
    (fun i => pySlice data i (i + 4) == MAGIC_MKV_HEADER)

/-- Round `num / den` to the nearest integer, ties to even — the rounding
IEEE-754 binary64 arithmetic applies when Python formats a float with
`.2f` and the value is exactly representable (here all values are
`size / 2^k` with `size < 2^53`, hence exact). -/
def roundHalfEvenNat (num den : Nat) : Nat :=
  let q := num / den
  let r := num % den
  if 2 * r < den then q
  else if den < 2 * r then q + 1
  else if q % 2 = 0 then q else q + 1

/-- Model of Python `f"{x:.2f}"` for the exact non-negative value `num / den`. -/
def dotTwo (num den : Nat) : String :=
  let c := roundHalfEvenNat (num * 100) den
  toString (c / 100) ++ "." ++
    (if c % 100 < 10 then "0" ++ toString (c % 100) else toString (c % 100))

/-- `format_file_size` (source lines 81-93): `size_mb = size_bytes / (1024*1024)`;
if `size_mb >= 1` render MB, else KB, both with two decimals.  The float
division by a power of two is exact for `size_bytes < 2^53`, so the source
test `size_mb >= 1` is the integer test `1024*1024 <= size_bytes` used here;
`mbBranch_iff` below proves the equivalence with the exact-arithmetic test. -/
def format_file_size (size_bytes : Nat) : String :=
  if 1024 * 1024 ≤ size_bytes then dotTwo size_bytes (1024 * 1024) ++ " MB"
  else dotTwo size_bytes 1024 ++ " KB"

/-- The source's branch condition `size_mb >= 1` (on the exact value of the
float division) is equivalent to the integer comparison used in
`format_file_size`. -/
theorem mbBranch_iff (size_bytes : Nat) :
    (1 ≤ (size_bytes : ℚ) / (1024 * 1024)) ↔ 1024 * 1024 ≤ size_bytes := by
  rw [one_le_div (by norm_num : (0:ℚ) < 1024 * 1024)]
  exact_mod_cast Iff.rfl

/-- The output file name `f"{output_prefix}_{idx}.mkv"` (source line 47). -/
def artifactName (pfx : String) (idx : Nat) : String :=
  pfx ++ "_" ++ toString idx ++ ".mkv"

/-- Observable side effects of `split_mkv_stream`, in program order.
`logInfo`, `writeFile` and `writeError` also record the segment index that
produced them (in the source the index is encoded in the file name). -/
inductive Effect
  | logError (msg : String)
  | logWarning (idx : Nat)
  | logInfo (idx : Nat) (name : String) (sizeText : String)
  | mkdir (pfxText : String)
  | writeFile (idx : Nat) (name : String) (content : List Nat)
  | writeError (idx : Nat) (name : String)
  | summary (lines : List String)
deriving DecidableEq, Repr

/-- The boundary `end = start_indices[idx + 1] if idx + 1 < len(start_indices)
else len(data)` (source line 39), phrased on the tail of the offset list. -/
def nextBoundary (data : List Nat) : List Nat → Nat
  | [] => data.length
  | nxt :: _ => nxt

/-- The segments the splitter derives from an offset list (source lines 38-40):
`segment = data[start:end]` for each offset in turn. -/
def segments (data : List Nat) : List Nat → List (List Nat)
  | [] => []
  | start :: rest => pySlice data start (nextBoundary data rest) :: segments data rest

/-- The segment the loop body builds at position `t` of the offset list,
written with indexing as in the source: `data[o_t : o_(t+1) or len(data)]`. -/
def segAt (data offs : List Nat) (t : Nat) : List Nat :=
  pySlice data (offs.getD t 0) (offs.getD (t + 1) data.length)

/-- The `for idx, start in enumerate(start_indices)` loop of
`split_mkv_stream` (source lines 38-55).  Returns the effect trace and the
`file_sizes` accumulator rows; each row also carries its segment index
(in the source the index is encoded in the file name). -/
def splitLoop (data : List Nat) (pfx : String) (writeOk : Nat → Bool) :
    Nat → List Nat → List Effect × List (Nat × String × String)
  | _, [] => ([], [])
  | idx, start :: rest =>
    let segment := pySlice data start (nextBoundary data rest)
    let tl := splitLoop data pfx writeOk (idx + 1) rest
    if startswith segment MAGIC_MKV_HEADER then
      if writeOk idx then
        (Effect.writeFile idx (artifactName pfx idx) segment ::
           Effect.logInfo idx (artifactName pfx idx) (format_file_size segment.length) ::
           tl.1,
         (idx, artifactName pfx idx, format_file_size segment.length) :: tl.2)
      else
        (Effect.writeError idx (artifactName pfx idx) :: tl.1, tl.2)
    else
      (Effect.logWarning idx :: tl.1, tl.2)

/-- `max` over a Python generator: raises (returns `none`) on an empty
sequence, as `max()` does. -/
def maxOfList : List Nat → Option Nat
  | [] => none
  | x :: xs => some (xs.foldl Nat.max x)

/-- Python `s.ljust(w)`. -/
def ljust (s : String) (w : Nat) : String :=
  s ++ String.mk (List.replicate (w - s.length) ' ')

/-- `print_summary` (source lines 60-78).  `col1_width`/`col2_width` are
`max(...)` over generator expressions, which raise `ValueError` on an empty
`file_sizes`; that failure is modelled by `none`. -/
def print_summary (file_sizes : List (String × String)) : Option (List String) :=
  match maxOfList (file_sizes.map (fun r => r.1.length)),
        maxOfList (file_sizes.map (fun r => r.2.length)) with
  | some col1, some col2 =>
    some (["Summary of created files:",
           "+" ++ String.mk (List.replicate (col1 + 2) '-') ++ "+" ++
             String.mk (List.replicate (col2 + 2) '-') ++ "+",
           "| " ++ ljust "File Name" col1 ++ " | " ++ ljust "Size" col2 ++ " |",
           "+" ++ String.mk (List.replicate (col1 + 2) '-') ++ "+" ++
             String.mk (List.replicate (col2 + 2) '-') ++ "+"] ++
          file_sizes.map (fun r => "| " ++ ljust r.1 col1 ++ " | " ++ ljust r.2 col2 ++ " |") ++
          ["+" ++ String.mk (List.replicate (col1 + 2) '-') ++ "+" ++
             String.mk (List.replicate (col2 + 2) '-') ++ "+"])
  | _, _ => none

/-- Result of one `split_mkv_stream` run: the effect trace, the
`file_sizes` rows, and whether an exception escaped (the `ValueError`
from `max()` on an empty sequence in `print_summary`). -/
structure SplitOutcome where
  trace : List Effect
  fileRows : List (Nat × String × String)
  crashed : Bool
deriving DecidableEq, Repr

/-- `split_mkv_stream` (source lines 22-57).  `Effect.mkdir pfx` stands for
`os.makedirs(os.path.dirname(output_prefix) or '.', exist_ok=True)`. -/
def split_mkv_stream (data : List Nat) (pfx : String) (writeOk : Nat → Bool) :
    SplitOutcome :=
  let start_indices := find_mkv_headers data
  if start_indices.isEmpty then
    ⟨[Effect.logError "No MKV headers found."], [], false⟩
  else
    let res := splitLoop data pfx writeOk 0 start_indices
    match print_summary (res.2.map (fun r => r.2)) with
    | none => ⟨Effect.mkdir pfx :: res.1, res.2, true⟩
    | some lines => ⟨Effect.mkdir pfx :: res.1 ++ [Effect.summary lines], res.2, false⟩

/-- Loop-iteration head events: each iteration of the splitter loop emits
exactly one of these (a warning, a successful write, or a write error). -/
def isIterEvent : Effect → Bool
  | Effect.logWarning _ => true
  | Effect.writeFile _ _ _ => true
  | Effect.writeError _ _ => true
  | _ => false

/-! ### Helper lemmas about the scanner and slices -/

theorem find_mkv_headers_pairwise (data : List Nat) :
    List.Pairwise (· < ·) (find_mkv_headers data) :=
  List.Pairwise.filter _ (List.pairwise_lt_range _)

theorem find_mkv_headers_slice {data : List Nat} {o : Nat}
    (h : o ∈ find_mkv_headers data) :
    pySlice data o (o + 4) = MAGIC_MKV_HEADER :=
  eq_of_beq (List.mem_filter.mp h).2

theorem find_mkv_headers_le_length {data : List Nat} {o : Nat}
    (h : o ∈ find_mkv_headers data) : o ≤ data.length := by
  have hm := List.mem_range.mp (List.mem_filter.mp h).1
  omega

theorem pySlice_full (d : List Nat) (a : Nat) :
    pySlice d a d.length = d.drop a := by
  unfold pySlice
  exact List.take_of_length_le (by rw [List.length_drop])

theorem pySlice_append (d : List Nat) (a b c : Nat) (hab : a ≤ b) (hbc : b ≤ c) :
    pySlice d a b ++ pySlice d b c = pySlice d a c := by
  have h1 : (d.drop a).drop (b - a) = d.drop b := by
    rw [List.drop_drop]
    congr 1
    omega
  have h2 : c - a = (b - a) + (c - b) := by omega
  unfold pySlice
  rw [← h1, ← List.take_add, ← h2]

theorem segments_flatten (d : List Nat) :
    ∀ (offs : List Nat) (o : Nat), List.Chain (· ≤ ·) o offs →
      (∀ x ∈ o :: offs, x ≤ d.length) →
      (segments d (o :: offs)).flatten = d.drop o := by
  intro offs
  induction offs with
  | nil =>
    intro o _ _
    simp [segments, nextBoundary, pySlice_full]
  | cons o2 rest ih =>
    intro o hchain hbound
    have h12 := (List.chain_cons.mp hchain).1
    have h2c := (List.chain_cons.mp hchain).2
    have hb2 : ∀ x ∈ o2 :: rest, x ≤ d.length := by
      intro x hx
      exact hbound x (List.mem_cons_of_mem _ hx)
    have hlen2 : o2 ≤ d.length := hb2 o2 (List.mem_cons_self _ _)
    show pySlice d o o2 ++ (segments d (o2 :: rest)).flatten = d.drop o
    rw [ih o2 h2c hb2, ← pySlice_full d o2, pySlice_append d o o2 d.length h12 hlen2,
      pySlice_full]

/-! ### Helper lemmas about the splitter loop -/

theorem segAt_cons_zero (data : List Nat) (start : Nat) (rest : List Nat) :
    segAt data (start :: rest) 0 = pySlice data start (nextBoundary data rest) := by
  cases rest <;> rfl

theorem segAt_cons_succ (data : List Nat) (start : Nat) (rest : List Nat) (t : Nat) :
    segAt data (start :: rest) (t + 1) = segAt data rest t := rfl

theorem splitLoop_writeFile_mem (d : List Nat) (p : String) (w : Nat → Bool) :
    ∀ (offs : List Nat) (i j : Nat) (name : String) (content : List Nat),
      Effect.writeFile j name content ∈ (splitLoop d p w i offs).1 →
      i ≤ j ∧ j - i < offs.length ∧ w j = true ∧ name = artifactName p j ∧
        content = segAt d offs (j - i) ∧
        startswith content MAGIC_MKV_HEADER = true := by
  intro offs
  induction offs with
  | nil =>
    intro i j name content h
    simp [splitLoop] at h
  | cons start rest ih =>
    intro i j name content h
    by_cases hs : startswith (pySlice d start (nextBoundary d rest)) MAGIC_MKV_HEADER = true
    · by_cases hw : w i = true
      · simp [splitLoop, hs, hw] at h
        rcases h with ⟨hj, hn, hc⟩ | h
        · have hji0 : j - i = 0 := by omega
          refine ⟨by omega, by simp; omega, by rw [hj]; exact hw, by rw [hj]; exact hn,
            ?_, by rw [hc]; exact hs⟩
          rw [hji0, segAt_cons_zero]
          exact hc
        · obtain ⟨h1, h2, h3, h4, h5, h6⟩ := ih (i + 1) j name content h
          have hji : j - i = (j - (i + 1)) + 1 := by omega
          refine ⟨by omega, by simp; omega, h3, h4, ?_, h6⟩
          rw [hji, segAt_cons_succ]
          exact h5
      · simp [splitLoop, hs, hw] at h
        obtain ⟨h1, h2, h3, h4, h5, h6⟩ := ih (i + 1) j name content h
        have hji : j - i = (j - (i + 1)) + 1 := by omega
        refine ⟨by omega, by simp; omega, h3, h4, ?_, h6⟩
        rw [hji, segAt_cons_succ]
        exact h5
    · simp [splitLoop, hs] at h
      obtain ⟨h1, h2, h3, h4, h5, h6⟩ := ih (i + 1) j name content h
      have hji : j - i = (j - (i + 1)) + 1 := by omega
      refine ⟨by omega, by simp; omega, h3, h4, ?_, h6⟩
      rw [hji, segAt_cons_succ]
      exact h5

theorem splitLoop_warn_of_bad (d : List Nat) (p : String) (w : Nat → Bool) :
    ∀ (offs : List Nat) (i t : Nat), t < offs.length →
      startswith (segAt d offs t) MAGIC_MKV_HEADER = false →
      Effect.logWarning (i + t) ∈ (splitLoop d p w i offs).1 := by
  intro offs
  induction offs with
  | nil =>
    intro i t ht
    simp at ht
  | cons start rest ih =>
    intro i t ht hbad
    cases t with
    | zero =>
      rw [segAt_cons_zero] at hbad
      simp [splitLoop, hbad]
    | succ u =>
      rw [segAt_cons_succ] at hbad
      have hu : u < rest.length := by simpa using Nat.lt_of_succ_lt_succ (by simpa using ht)
      have hmem := ih (i + 1) u hu hbad
      have hidx : i + 1 + u = i + (u + 1) := by omega
      rw [hidx] at hmem
      by_cases hs : startswith (pySlice d start (nextBoundary d rest)) MAGIC_MKV_HEADER = true
      · by_cases hw : w i = true
        · simp [splitLoop, hs, hw]
          exact hmem
        · simp [splitLoop, hs, hw]
          exact hmem
      · simp [splitLoop, hs]
        exact hmem

theorem splitLoop_writeError_of_fail (d : List Nat) (p : String) (w : Nat → Bool) :
    ∀ (offs : List Nat) (i t : Nat), t < offs.length →
      startswith (segAt d offs t) MAGIC_MKV_HEADER = true →
      w (i + t) = false →
      Effect.writeError (i + t) (artifactName p (i + t)) ∈ (splitLoop d p w i offs).1 := by
  intro offs
  induction offs with
  | nil =>
    intro i t ht
    simp at ht
  | cons start rest ih =>
    intro i t ht hvalid hfail
    cases t with
    | zero =>
      rw [segAt_cons_zero] at hvalid
      have hw : w i = false := by simpa using hfail
      simp [splitLoop, hvalid, hw]
    | succ u =>
      rw [segAt_cons_succ] at hvalid
      have hu : u < rest.length := by simpa using Nat.lt_of_succ_lt_succ (by simpa using ht)
      have hidx : i + 1 + u = i + (u + 1) := by omega
      have hmem := ih (i + 1) u hu hvalid (by rw [hidx]; exact hfail)
      rw [hidx] at hmem
      by_cases hs : startswith (pySlice d start (nextBoundary d rest)) MAGIC_MKV_HEADER = true
      · by_cases hw : w i = true
        · simp [splitLoop, hs, hw]
          exact hmem
        · simp [splitLoop, hs, hw]
          exact hmem
      · simp [splitLoop, hs]
        exact hmem

theorem splitLoop_rows_w (d : List Nat) (p : String) (w : Nat → Bool) :
    ∀ (offs : List Nat) (i j : Nat) (name s : String),
      (j, name, s) ∈ (splitLoop d p w i offs).2 → w j = true := by
  intro offs
  induction offs with
  | nil =>
    intro i j name s h
    simp [splitLoop] at h
  | cons start rest ih =>
    intro i j name s h
    by_cases hs : startswith (pySlice d start (nextBoundary d rest)) MAGIC_MKV_HEADER = true
    · by_cases hw : w i = true
      · simp [splitLoop, hs, hw] at h
        rcases h with ⟨hj, _, _⟩ | h
        · subst hj
          exact hw
        · exact ih (i + 1) j name s h
      · simp [splitLoop, hs, hw] at h
        exact ih (i + 1) j name s h
    · simp [splitLoop, hs] at h
      exact ih (i + 1) j name s h

theorem splitLoop_countP_iter (d : List Nat) (p : String) (w : Nat → Bool) :
    ∀ (offs : List Nat) (i : Nat),
      List.countP isIterEvent (splitLoop d p w i offs).1 = offs.length := by
  intro offs
  induction offs with
  | nil =>
    intro i
    simp [splitLoop]
  | cons start rest ih =>
    intro i
    by_cases hs : startswith (pySlice d start (nextBoundary d rest)) MAGIC_MKV_HEADER = true
    · by_cases hw : w i = true
      · simp [splitLoop, hs, hw, List.countP_cons, isIterEvent, ih]
      · simp [splitLoop, hs, hw, List.countP_cons, isIterEvent, ih]
    · simp [splitLoop, hs, List.countP_cons, isIterEvent, ih]

theorem split_stream_decomp (data : List Nat) (pfx : String) (w : Nat → Bool)
    (h : (find_mkv_headers data).isEmpty = false) :
    ∃ post : List Effect,
      (split_mkv_stream data pfx w).trace
        = Effect.mkdir pfx :: (splitLoop data pfx w 0 (find_mkv_headers data)).1 ++ post ∧
      (post = [] ∨ ∃ lines, post = [Effect.summary lines]) ∧
      (split_mkv_stream data pfx w).fileRows
        = (splitLoop data pfx w 0 (find_mkv_headers data)).2 := by
  unfold split_mkv_stream
  cases hps : print_summary
      ((splitLoop data pfx w 0 (find_mkv_headers data)).2.map (fun r => r.2)) with
  | none =>
    refine ⟨[], ?_, Or.inl rfl, ?_⟩ <;> simp [h, hps]
  | some lines =>
    refine ⟨[Effect.summary lines], ?_, Or.inr ⟨lines, rfl⟩, ?_⟩ <;> simp [h, hps]

/-! ### Claim theorems (first batch) -/

/-- C1: the claim says the scanner reports every marker occurrence in the
inclusive offset range `[0, n-4]`, in particular one starting at `n-4`.
The code iterates `range(len(data) - 4)`, which excludes `n-4`: on the
4-byte buffer that is exactly the marker (and on a 5-byte buffer whose
marker starts at offset 1 = n-4) the occurrence at `n-4` is present in the
bytes but absent from the result.  This contradicts the function's own
docstring ("locate all occurrences of the header sequence"): a code bug. -/
theorem C1_code_bug_eval :
    pySlice [0x1A, 0x45, 0xDF, 0xA3] 0 4 = MAGIC_MKV_HEADER ∧
    find_mkv_headers [0x1A, 0x45, 0xDF, 0xA3] = [] ∧
    pySlice [9, 0x1A, 0x45, 0xDF, 0xA3] 1 5 = MAGIC_MKV_HEADER ∧
    find_mkv_headers [9, 0x1A, 0x45, 0xDF, 0xA3] = [] := by decide

/-- C2: the claim says that when zero artifacts are created from a
non-empty offset list, the summary step must not compute a maximum over an
empty collection and must not raise.  In the code `print_summary` is called
unconditionally and computes `max(...)` over the empty `file_sizes`, which
raises `ValueError`: on a buffer with one marker and every write failing,
the run crashes.  A code bug relative to the stated contract. -/
theorem C2_code_bug_eval :
    print_summary [] = none ∧
    (split_mkv_stream [0x1A, 0x45, 0xDF, 0xA3, 0] "out" (fun _ => false)).crashed
      = true := by
  exact ⟨rfl, rfl⟩

/-- C3 counterexample: on a buffer with one leading junk byte before the
only marker, the offset list is `[1]` (non-empty) and concatenating the
derived segments yields the buffer's suffix from offset 1, not the buffer
itself: the claimed identity `segment_0 + ... == B` fails. -/
theorem C3_counterexample_eval :
    find_mkv_headers [9, 0x1A, 0x45, 0xDF, 0xA3, 7] = [1] ∧
    (segments [9, 0x1A, 0x45, 0xDF, 0xA3, 7]
        (find_mkv_headers [9, 0x1A, 0x45, 0xDF, 0xA3, 7])).flatten
      ≠ [9, 0x1A, 0x45, 0xDF, 0xA3, 7] := by decide

/-- C3 (amended): concatenating all segments derived from a non-empty
offset list reconstructs exactly the suffix of the buffer from the first
offset, `B[o_0 : len(B)]`; the bytes before the first marker are dropped.
(The original claim's identity holds exactly when the first offset is 0.) -/
theorem C3_concat_amended (data : List Nat) (o : Nat) (rest : List Nat)
    (h : find_mkv_headers data = o :: rest) :
    (segments data (find_mkv_headers data)).flatten = data.drop o := by
  have hp := find_mkv_headers_pairwise data
  rw [h] at hp ⊢
  apply segments_flatten
  · exact List.Chain.imp (fun _ _ => le_of_lt) (List.chain'_iff_pairwise.mpr hp)
  · intro x hx
    exact find_mkv_headers_le_length (by rw [h]; exact hx)

theorem C3_concat_amended_witness :
    (segments [0x1A, 0x45, 0xDF, 0xA3, 7]
        (find_mkv_headers [0x1A, 0x45, 0xDF, 0xA3, 7])).flatten
      = List.drop 0 [0x1A, 0x45, 0xDF, 0xA3, 7] :=
  C3_concat_amended [0x1A, 0x45, 0xDF, 0xA3, 7] 0 [] (by decide)

/-- C5: `format_file_size` renders `size/2^20` as `"X.XX MB"` exactly when
the byte count is at least 1048576 (the source's float test `size_mb >= 1`
is equivalent, as the first conjunct states), otherwise `size/2^10` as
`"X.XX KB"` even below 1 KB, two-decimal fixed precision; and the four
quoted example values render as stated. -/
theorem C5_format_file_size (n : Nat) :
    ((1 ≤ (n : ℚ) / (1024 * 1024)) ↔ 1024 * 1024 ≤ n) ∧
    format_file_size n =
      (if 1024 * 1024 ≤ n then dotTwo n (1024 * 1024) ++ " MB"
       else dotTwo n 1024 ++ " KB") ∧
    format_file_size 0 = "0.00 KB" ∧
    format_file_size 1024 = "1.00 KB" ∧
    format_file_size (1024 * 1024) = "1.00 MB" ∧
    format_file_size (1536 * 1024) = "1.50 MB" :=
  ⟨mbBranch_iff n, rfl, by decide, by decide, by decide, by decide⟩

theorem C5_format_file_size_witness :
    ((1 ≤ (512 : ℚ) / (1024 * 1024)) ↔ 1024 * 1024 ≤ 512) ∧
    format_file_size 512 =
      (if 1024 * 1024 ≤ 512 then dotTwo 512 (1024 * 1024) ++ " MB"
       else dotTwo 512 1024 ++ " KB") ∧
    format_file_size 0 = "0.00 KB" ∧
    format_file_size 1024 = "1.00 KB" ∧
    format_file_size (1024 * 1024) = "1.00 MB" ∧
    format_file_size (1536 * 1024) = "1.50 MB" :=
  C5_format_file_size 512

/-- C9: the offset list the scanner produces is strictly increasing, and
every offset `o` in it satisfies `buffer[o:o+4] == MAGIC_MKV_HEADER`.  (In
this functional embedding the list is a value, so it is trivially never
mutated between production and consumption.) -/
theorem C9_offset_invariant (data : List Nat) :
    List.Pairwise (· < ·) (find_mkv_headers data) ∧
    ∀ o ∈ find_mkv_headers data, pySlice data o (o + 4) = MAGIC_MKV_HEADER :=
  ⟨find_mkv_headers_pairwise data, fun _ ho => find_mkv_headers_slice ho⟩

theorem C9_offset_invariant_witness :
    List.Pairwise (· < ·)
      (find_mkv_headers [0x1A, 0x45, 0xDF, 0xA3, 0x1A, 0x45, 0xDF, 0xA3, 5]) ∧
    ∀ o ∈ find_mkv_headers [0x1A, 0x45, 0xDF, 0xA3, 0x1A, 0x45, 0xDF, 0xA3, 5],
      pySlice [0x1A, 0x45, 0xDF, 0xA3, 0x1A, 0x45, 0xDF, 0xA3, 5] o (o + 4)
        = MAGIC_MKV_HEADER :=
  C9_offset_invariant [0x1A, 0x45, 0xDF, 0xA3, 0x1A, 0x45, 0xDF, 0xA3, 5]

/-! ### Claim theorems (second batch) -/

/-- C4: for any buffer and any offset list (synthetic entries included), a
segment whose first 4 bytes are not the marker is skipped with a warning at
its index; no artifact with that index is ever written; no written artifact
fails to begin with the marker; and every segment of the list is still
processed (each produces exactly one iteration event), so the skipped
index leaves a gap in the `"{prefix}_{i}.mkv"` numbering. -/
theorem C4_invalid_segment_skipped (data : List Nat) (pfx : String) (w : Nat → Bool)
    (i t : Nat) (offs : List Nat) (ht : t < offs.length)
    (hbad : startswith (segAt data offs t) MAGIC_MKV_HEADER = false) :
    Effect.logWarning (i + t) ∈ (splitLoop data pfx w i offs).1 ∧
    (∀ name content,
      Effect.writeFile (i + t) name content ∉ (splitLoop data pfx w i offs).1) ∧
    (∀ j name content,
      Effect.writeFile j name content ∈ (splitLoop data pfx w i offs).1 →
        startswith content MAGIC_MKV_HEADER = true) ∧
    List.countP isIterEvent (splitLoop data pfx w i offs).1 = offs.length := by
  refine ⟨splitLoop_warn_of_bad data pfx w offs i t ht hbad,
    fun name content hmem => ?_,
    fun j name content hmem =>
      (splitLoop_writeFile_mem data pfx w offs i j name content hmem).2.2.2.2.2,
    splitLoop_countP_iter data pfx w offs i⟩
  obtain ⟨_, _, _, _, hc, hsw⟩ :=
    splitLoop_writeFile_mem data pfx w offs i (i + t) name content hmem
  have hti : i + t - i = t := by omega
  rw [hc, hti, hbad] at hsw
  exact Bool.noConfusion hsw

theorem C4_invalid_segment_skipped_witness :
    Effect.logWarning (0 + 1) ∈
      (splitLoop [0x1A, 0x45, 0xDF, 0xA3, 0, 0, 0, 0] "out" (fun _ => true) 0 [0, 4]).1 ∧
    (∀ name content,
      Effect.writeFile (0 + 1) name content ∉
        (splitLoop [0x1A, 0x45, 0xDF, 0xA3, 0, 0, 0, 0] "out" (fun _ => true) 0 [0, 4]).1) ∧
    (∀ j name content,
      Effect.writeFile j name content ∈
          (splitLoop [0x1A, 0x45, 0xDF, 0xA3, 0, 0, 0, 0] "out" (fun _ => true) 0 [0, 4]).1 →
        startswith content MAGIC_MKV_HEADER = true) ∧
    List.countP isIterEvent
        (splitLoop [0x1A, 0x45, 0xDF, 0xA3, 0, 0, 0, 0] "out" (fun _ => true) 0 [0, 4]).1
      = [0, 4].length :=
  C4_invalid_segment_skipped [0x1A, 0x45, 0xDF, 0xA3, 0, 0, 0, 0] "out" (fun _ => true)
    0 1 [0, 4] (by decide) (by decide)

/-- C6: when the scanner finds no markers, the splitter emits exactly one
error-level diagnostic ("No MKV headers found."), creates no artifacts, and
returns without crashing — in particular for the empty buffer. -/
theorem C6_no_markers (data : List Nat) (pfx : String) (w : Nat → Bool)
    (h : find_mkv_headers data = []) :
    split_mkv_stream data pfx w =
      ⟨[Effect.logError "No MKV headers found."], [], false⟩ := by
  simp [split_mkv_stream, h]

theorem C6_no_markers_witness :
    split_mkv_stream [] "out" (fun _ => true) =
      ⟨[Effect.logError "No MKV headers found."], [], false⟩ :=
  C6_no_markers [] "out" (fun _ => true) (by decide)

/-- C7: every artifact actually persisted for index `i` is named
`"{prefix}_{i}.mkv"` and its content is byte-for-byte the slice
`B[o_i : end_i]` with `end_i = o_(i+1)` when it exists and `len(B)`
otherwise. -/
theorem C7_artifact_matches_slice (data : List Nat) (pfx : String) (w : Nat → Bool)
    (j : Nat) (name : String) (content : List Nat)
    (h : Effect.writeFile j name content ∈ (split_mkv_stream data pfx w).trace) :
    name = artifactName pfx j ∧
    content = pySlice data ((find_mkv_headers data).getD j 0)
        ((find_mkv_headers data).getD (j + 1) data.length) := by
  by_cases he : (find_mkv_headers data).isEmpty = true
  · exfalso
    have htr : (split_mkv_stream data pfx w).trace
        = [Effect.logError "No MKV headers found."] := by
      simp [split_mkv_stream, he]
    rw [htr] at h
    simp at h
  · have hne : (find_mkv_headers data).isEmpty = false := by simpa using he
    obtain ⟨post, htr, hpost, _⟩ := split_stream_decomp data pfx w hne
    rw [htr] at h
    have hloop : Effect.writeFile j name content
        ∈ (splitLoop data pfx w 0 (find_mkv_headers data)).1 := by
      rcases List.mem_cons.mp h with hh | h2
      · exact absurd hh (by simp)
      · rcases List.mem_append.mp h2 with h3 | h4
        · exact h3
        · rcases hpost with hp | ⟨lines, hp⟩ <;> subst hp <;> simp at h4
    obtain ⟨_, _, _, hname, hcont, _⟩ :=
      splitLoop_writeFile_mem data pfx w (find_mkv_headers data) 0 j name content hloop
    rw [Nat.sub_zero] at hcont
    exact ⟨hname, hcont⟩

theorem C7_artifact_matches_slice_witness :
    "out_0.mkv" = artifactName "out" 0 ∧
    [0x1A, 0x45, 0xDF, 0xA3, 7] = pySlice [0x1A, 0x45, 0xDF, 0xA3, 7]
        ((find_mkv_headers [0x1A, 0x45, 0xDF, 0xA3, 7]).getD 0 0)
        ((find_mkv_headers [0x1A, 0x45, 0xDF, 0xA3, 7]).getD 1
          [0x1A, 0x45, 0xDF, 0xA3, 7].length) :=
  C7_artifact_matches_slice [0x1A, 0x45, 0xDF, 0xA3, 7] "out" (fun _ => true) 0
    "out_0.mkv" [0x1A, 0x45, 0xDF, 0xA3, 7] (by decide)

/-- C8: when writing the artifact of one valid segment fails, an error
naming that specific artifact is logged, its row never reaches the
`file_sizes` list feeding the summary, and every segment of the offset
list is still processed (one iteration event each — no abort). -/
theorem C8_write_failure_isolated (data : List Nat) (pfx : String) (w : Nat → Bool)
    (t : Nat) (ht : t < (find_mkv_headers data).length)
    (hvalid : startswith (segAt data (find_mkv_headers data) t) MAGIC_MKV_HEADER = true)
    (hfail : w t = false) :
    Effect.writeError t (artifactName pfx t) ∈ (split_mkv_stream data pfx w).trace ∧
    (∀ name s, (t, name, s) ∉ (split_mkv_stream data pfx w).fileRows) ∧
    List.countP isIterEvent (split_mkv_stream data pfx w).trace
      = (find_mkv_headers data).length := by
  have hne : (find_mkv_headers data).isEmpty = false := by
    cases hf : find_mkv_headers data with
    | nil => rw [hf] at ht; simp at ht
    | cons a l => simp
  obtain ⟨post, htr, hpost, hrows⟩ := split_stream_decomp data pfx w hne
  have herr := splitLoop_writeError_of_fail data pfx w (find_mkv_headers data) 0 t ht
    hvalid (by simpa using hfail)
  rw [Nat.zero_add] at herr
  refine ⟨?_, ?_, ?_⟩
  · rw [htr]
    exact List.mem_cons_of_mem _ (List.mem_append_left _ herr)
  · intro name s hmem
    rw [hrows] at hmem
    have hw := splitLoop_rows_w data pfx w (find_mkv_headers data) 0 t name s hmem
    rw [hfail] at hw
    exact Bool.noConfusion hw
  · have hcount := splitLoop_countP_iter data pfx w (find_mkv_headers data) 0
    rw [htr]
    rcases hpost with hp | ⟨lines, hp⟩ <;> subst hp <;>
      simp [List.countP_cons, List.countP_append, isIterEvent, hcount]

theorem C8_write_failure_isolated_witness :
    Effect.writeError 0 (artifactName "out" 0) ∈
      (split_mkv_stream [0x1A, 0x45, 0xDF, 0xA3, 0x1A, 0x45, 0xDF, 0xA3, 7] "out"
        (fun j => j != 0)).trace ∧
    (∀ name s, (0, name, s) ∉
      (split_mkv_stream [0x1A, 0x45, 0xDF, 0xA3, 0x1A, 0x45, 0xDF, 0xA3, 7] "out"
        (fun j => j != 0)).fileRows) ∧
    List.countP isIterEvent
        (split_mkv_stream [0x1A, 0x45, 0xDF, 0xA3, 0x1A, 0x45, 0xDF, 0xA3, 7] "out"
          (fun j => j != 0)).trace
      = (find_mkv_headers [0x1A, 0x45, 0xDF, 0xA3, 0x1A, 0x45, 0xDF, 0xA3, 7]).length :=
  C8_write_failure_isolated [0x1A, 0x45, 0xDF, 0xA3, 0x1A, 0x45, 0xDF, 0xA3, 7] "out"
    (fun j => j != 0) 0 (by decide) (by decide) (by decide)

/-- C10: when the scanner finds no markers, `split_mkv_stream` performs no
filesystem effect at all: no directory creation, no file write, not even a
failed write attempt appears in the trace. -/
theorem C10_frame_no_markers (data : List Nat) (pfx : String) (w : Nat → Bool)
    (h : find_mkv_headers data = []) :
    (∀ s, Effect.mkdir s ∉ (split_mkv_stream data pfx w).trace) ∧
    (∀ j name content,
      Effect.writeFile j name content ∉ (split_mkv_stream data pfx w).trace) ∧
    (∀ j name, Effect.writeError j name ∉ (split_mkv_stream data pfx w).trace) := by
  have htr : (split_mkv_stream data pfx w).trace
      = [Effect.logError "No MKV headers found."] := by
    simp [split_mkv_stream, h]
  refine ⟨fun s hs => ?_, fun j name content hc => ?_, fun j name hn => ?_⟩
  · rw [htr] at hs
    simp at hs
  · rw [htr] at hc
    simp at hc
  · rw [htr] at hn
    simp at hn

theorem C10_frame_no_markers_witness :
    (∀ s, Effect.mkdir s ∉ (split_mkv_stream [1, 2, 3] "out" (fun _ => true)).trace) ∧
    (∀ j name content,
      Effect.writeFile j name content ∉
        (split_mkv_stream [1, 2, 3] "out" (fun _ => true)).trace) ∧
    (∀ j name,
      Effect.writeError j name ∉ (split_mkv_stream [1, 2, 3] "out" (fun _ => true)).trace) :=
  C10_frame_no_markers [1, 2, 3] "out" (fun _ => true) (by decide)
